import Mathlib

/-!
# Self-upgrade of the minikube binary

A shallow embedding of `cmd/minikube/cmd/upgrade.go` and
`pkg/minikube/download/minikube.go`.

The Go code is stateful: it talks to the operating system (stat, chmod,
rename, subprocess), to the release feed and to the downloader.  The embedding
passes an explicit `State` (the file system and a log of every external call,
in order) through each function, and reads everything the environment decides
(the platform name, the working directory, which system calls fail and with
which errno, what a subprocess does) from an `Env`.
-/

namespace MinikubeUpgrade

/-! ## Errors -/

/-- The errno values a file-system call of the model may fail with. -/
inductive Errno
  | EPERM | ENOENT | EACCES | EBUSY | EEXIST | EXDEV | ENOTDIR | EISDIR
  | ENOSPC | EROFS
  deriving DecidableEq

/-- The text Go prints for an errno. -/
def Errno.Error : Errno → String
  | .EPERM => "operation not permitted"
  | .ENOENT => "no such file or directory"
  | .EACCES => "permission denied"
  | .EBUSY => "device or resource busy"
  | .EEXIST => "file exists"
  | .EXDEV => "invalid cross-device link"
  | .ENOTDIR => "not a directory"
  | .EISDIR => "is a directory"
  | .ENOSPC => "no space left on device"
  | .EROFS => "read-only file system"

/-- Go's `syscall.Errno.Is(oserror.ErrPermission)`: `EACCES` or `EPERM`. -/
def Errno.isPermission : Errno → Bool
  | .EACCES => true
  | .EPERM => true
  | _ => false

/-- The Go error values that occur in the two source files:
`*fs.PathError` (from `os.Stat`, `os.Chmod`), `*os.LinkError` (from
`os.Rename`), the plain error of `fmt.Errorf`, `*exec.ExitError` and
`*exec.Error` (from `cmd.Run`), and the wrapper of `errors.Wrap`. -/
inductive GoError
  | pathError (op path : String) (errno : Errno)
  | linkError (op old new : String) (errno : Errno)
  | errorString (msg : String)
  | exitError (code : Nat)
  | execError (name : String) (msg : String)
  | wrapped (cause : GoError) (msg : String)
  deriving DecidableEq

/-- The `Error()` method: the message of an error. -/
def GoError.Error : GoError → String
  | .pathError op path errno => op ++ " " ++ path ++ ": " ++ errno.Error
  | .linkError op old new errno => op ++ " " ++ old ++ " " ++ new ++ ": " ++ errno.Error
  | .errorString msg => msg
  | .exitError code => "exit status " ++ toString code
  | .execError name msg => "exec: " ++ name ++ ": " ++ msg
  | .wrapped cause msg => msg ++ ": " ++ cause.Error

/-- Go's `os.IsPermission`: it looks through `PathError` and `LinkError` (and
nothing else) for a permission errno. -/
def IsPermission : GoError → Bool
  | .pathError _ _ errno => errno.isPermission
  | .linkError _ _ _ errno => errno.isPermission
  | _ => false

/-- Go's `fmt.Errorf(format, arg)` for a format that ends in its only verb `%s`;
`format` is the text before the verb. -/
def Errorf (format : String) (arg : String) : GoError :=
  .errorString (format ++ arg)

/-! ## Semantic versions -/

/-- Modelled from the spec: a pre-release identifier of a semantic version (type
`PRVersion` of the external package `semver`, not in the source tree), either
numeric or alphanumeric. -/
structure PRVersion where
  VersionStr : String
  VersionNum : Nat
  IsNum : Bool
  deriving DecidableEq

/-- Modelled from the spec: a semantic version `major.minor.patch[-prerelease][+build]`
(type `Version` of the external package `semver`, not in the source tree). -/
structure Version where
  Major : Nat
  Minor : Nat
  Patch : Nat
  Pre : List PRVersion
  Build : List String
  deriving DecidableEq

/-- Modelled from the spec: three-way comparison of two pre-release identifiers
(method `PRVersion.Compare` of the external package `semver`): a numeric one is
below an alphanumeric one, two numeric ones compare as numbers, two
alphanumeric ones as strings. The result is -1, 0 or 1. -/
def PRVersion.Compare (v o : PRVersion) : Int :=
  if v.IsNum && !o.IsNum then -1
  else if !v.IsNum && o.IsNum then 1
  else if v.IsNum && o.IsNum then
    if v.VersionNum = o.VersionNum then 0
    else if v.VersionNum > o.VersionNum then 1
    else -1
  else
    if v.VersionStr = o.VersionStr then 0
    else if v.VersionStr > o.VersionStr then 1
    else -1

/-- Modelled from the spec: comparison of two non-empty pre-release lists, left
to right up to the first difference; when one list runs out first, the longer
one is the greater. -/
def comparePre : List PRVersion → List PRVersion → Int
  | [], [] => 0
  | [], _ :: _ => -1
  | _ :: _, [] => 1
  | x :: xs, y :: ys =>
    if x.Compare y = 0 then comparePre xs ys
    else if x.Compare y = 1 then 1
    else -1

/-- Modelled from the spec: three-way comparison of two versions (method
`Version.Compare` of the external package `semver`): major, then minor, then
patch, then the pre-release lists, where a version without pre-release is above
one with; build metadata takes no part. The result is -1, 0 or 1. -/
def Version.Compare (v o : Version) : Int :=
  if v.Major ≠ o.Major then (if v.Major > o.Major then 1 else -1)
  else if v.Minor ≠ o.Minor then (if v.Minor > o.Minor then 1 else -1)
  else if v.Patch ≠ o.Patch then (if v.Patch > o.Patch then 1 else -1)
  else if v.Pre.length = 0 ∧ o.Pre.length = 0 then 0
  else if v.Pre.length = 0 ∧ o.Pre.length > 0 then 1
  else if v.Pre.length > 0 ∧ o.Pre.length = 0 then -1
  else comparePre v.Pre o.Pre

/-- Modelled from the spec: method `GTE` of the external package `semver`,
greater than or equal. -/
def Version.GTE (v o : Version) : Bool :=
  decide (v.Compare o ≥ 0)

/-! ### The ordering in the words of the semantic-versioning rules -/

/-- Two pre-release identifiers are the same identifier. -/
def PRVersion.same (a b : PRVersion) : Prop :=
  (a.IsNum = true ∧ b.IsNum = true ∧ a.VersionNum = b.VersionNum) ∨
  (a.IsNum = false ∧ b.IsNum = false ∧ a.VersionStr = b.VersionStr)

/-- Identifier `a` has lower precedence than `b`: numeric identifiers are lower
than alphanumeric ones, numeric ones compare numerically, alphanumeric ones
lexically. -/
def PRVersion.lower (a b : PRVersion) : Prop :=
  (a.IsNum = true ∧ b.IsNum = false) ∨
  (a.IsNum = true ∧ b.IsNum = true ∧ a.VersionNum < b.VersionNum) ∨
  (a.IsNum = false ∧ b.IsNum = false ∧ a.VersionStr < b.VersionStr)

/-- Pre-release list `a` has lower precedence than `b`: at the first position
where they differ `a` has the lower identifier, or `a` is a proper beginning of
`b`. -/
def preLower : List PRVersion → List PRVersion → Prop
  | [], [] => False
  | [], _ :: _ => True
  | _ :: _, [] => False
  | x :: xs, y :: ys => x.lower y ∨ (x.same y ∧ preLower xs ys)

/-- Version `a` is strictly less than `b` under semantic-version ordering: the
first difference among major, minor and patch decides; with these equal, a
pre-release version is less than the normal version, and two pre-release
versions compare by their identifier lists. -/
def Version.precedes (a b : Version) : Prop :=
  a.Major < b.Major ∨ (a.Major = b.Major ∧
    (a.Minor < b.Minor ∨ (a.Minor = b.Minor ∧
      (a.Patch < b.Patch ∨ (a.Patch = b.Patch ∧
        ((a.Pre ≠ [] ∧ b.Pre = []) ∨ (a.Pre ≠ [] ∧ b.Pre ≠ [] ∧ preLower a.Pre b.Pre)))))))

/-! ## The release feed -/

/-- Modelled from the spec: one release of the feed (type `notify.Release`, not
in the source tree); the code reads its name only. -/
structure Release where
  Name : String
  deriving DecidableEq

/-- Modelled from the spec: the decoded release feed (type `notify.Releases`,
not in the source tree), newest release first. -/
structure ReleaseFeed where
  Releases : List Release
  deriving DecidableEq

/-! ## Files, paths and the file system -/

/-- A regular file: its bytes and its `os.FileMode`. -/
structure File where
  content : List Nat
  mode : Nat
  deriving DecidableEq

/-- A resolved path: the names from the root down (on Windows the volume is the
first name). -/
abbrev AbsPath := List String

/-- The file system: which regular file, if any, is at each resolved path. -/
abbrev FS := AbsPath → Option File

/-- Go's `os.IsPathSeparator`: a slash, and on Windows also a backslash. -/
def IsPathSeparator (goos : String) (c : Char) : Bool :=
  c == '/' || (goos == "windows" && c == '\\')

/-- Go's `filepath.Separator` as a string. -/
def Separator (goos : String) : String :=
  if goos = "windows" then "\\" else "/"

/-- Cut a list of characters at the separators, dropping empty pieces. `cur` is
the piece being read, reversed. -/
def splitAux (goos : String) : List Char → List Char → List String
  | [], cur => if cur = [] then [] else [String.mk cur.reverse]
  | c :: cs, cur =>
    if IsPathSeparator goos c then
      (if cur = [] then [] else [String.mk cur.reverse]) ++ splitAux goos cs []
    else splitAux goos cs (c :: cur)

/-- The names a path string is made of. -/
def splitPath (goos : String) (path : String) : List String :=
  splitAux goos path.data []

/-- Length of Go's `filepath.VolumeName`: a drive letter and a colon on Windows
(UNC volumes are not modelled), nothing elsewhere. -/
def volumeNameLen (goos : String) : List Char → Nat
  | d :: ':' :: _ => if goos = "windows" ∧ d.isAlpha then 2 else 0
  | _ => 0

/-- Go's `filepath.IsAbs`: a leading slash on POSIX; a volume followed by a
separator on Windows. -/
def IsAbs (goos : String) (path : String) : Bool :=
  if goos = "windows" then
    match path.data.drop (volumeNameLen goos path.data) with
    | c :: _ => volumeNameLen goos path.data == 2 && IsPathSeparator goos c
    | [] => false
  else
    match path.data with
    | c :: _ => c == '/'
    | [] => false

/-- How the operating system resolves a path string of a system call: an
absolute path by itself, a Windows path that starts with a separator on the
volume of the working directory, every other path below the working directory
`cwd`. Neither `.` and `..` nor symbolic links are followed. -/
def resolve (goos : String) (cwd : AbsPath) (path : String) : AbsPath :=
  if IsAbs goos path then splitPath goos path
  else if goos = "windows" ∧ (path.data.head?.map (IsPathSeparator goos)) = some true then
    cwd.take 1 ++ splitPath goos path
  else cwd ++ splitPath goos path

/-- Go's `filepath.Base`: the last element of the path. Trailing separators and
the volume name are removed first; the empty path gives `.`, a path of
separators only gives one separator. -/
def filepathBase (goos : String) (path : String) : String :=
  if path = "" then "."
  else
    let p1 := (path.data.reverse.dropWhile (IsPathSeparator goos)).reverse
    let p2 := p1.drop (volumeNameLen goos p1)
    let p3 := (p2.reverse.takeWhile (fun c => !IsPathSeparator goos c)).reverse
    if p3 = [] then Separator goos else String.mk p3

/-- Go's `filepath.Join` of a directory and one name, for an already clean
directory: the two with one separator between them. -/
def filepathJoin (goos : String) (dir name : String) : String :=
  if dir = "" then name
  else if (dir.data.getLast?.map (IsPathSeparator goos)) = some true then dir ++ name
  else dir ++ Separator goos ++ name

/-! ## Subprocesses -/

/-- The three standard streams of the running process. -/
inductive Stream
  | Stdin | Stdout | Stderr
  deriving DecidableEq

/-- Go's `exec.Cmd`, the fields the code touches. A stream field left `none` is
Go's `nil`. -/
structure Cmd where
  Path : String
  Args : List String
  Stdin : Option Stream
  Stdout : Option Stream
  Stderr : Option Stream
  deriving DecidableEq

/-- Go's `exec.Command(name, arg...)`: `Args` is the name followed by the
arguments, and no stream is set. -/
def execCommand (name : String) (arg : List String) : Cmd :=
  { Path := name, Args := name :: arg, Stdin := none, Stdout := none, Stderr := none }

/-- What a file descriptor of the child process is connected to. -/
inductive Handle
  | inherited (s : Stream)
  | devNull
  deriving DecidableEq

/-- Documented behaviour of `os/exec`: a stream field that is `nil` connects the
child to the null device, any other value is handed to the child. -/
def childHandle : Option Stream → Handle
  | some s => .inherited s
  | none => .devNull

/-- The child inherits the caller's standard input, output and error. -/
def Cmd.inheritsStdStreams (c : Cmd) : Prop :=
  childHandle c.Stdin = .inherited .Stdin ∧
  childHandle c.Stdout = .inherited .Stdout ∧
  childHandle c.Stderr = .inherited .Stderr

instance (c : Cmd) : Decidable c.inheritsStdStreams := by
  unfold Cmd.inheritsStdStreams; infer_instance

/-! ## The log of external calls and the state -/

/-- The message styles the code uses. -/
inductive Style
  | Usage | HealthCheck | Verifying | Fileserver | Success | Warning | FileDownload
  deriving DecidableEq

/-- One external call. -/
inductive Call
  | step (st : Style) (format : String) (vars : List (String × String))
  | styled (st : Style) (format : String) (vars : List (String × String))
  | fetchVersions (url : String)
  | download (url : String) (destination : String)
  | klogInfo (msg : String)
  | executablePath
  | stat (name : String)
  | chmod (name : String) (mode : Nat)
  | rename (oldpath newpath : String)
  | run (cmd : Cmd)
  deriving DecidableEq

/-- The mutable world: the file system and the calls made so far, oldest
first. -/
structure State where
  fs : FS
  log : List Call

/-- Everything the environment decides. The three `Fault` fields say which
system calls the operating system refuses, and with which errno (permissions,
devices, quotas: whatever is not the mere absence of a file); `runCmd` is what
running a subprocess does to the file system and the error `cmd.Run` returns.
The rest stands for code outside the source tree: `version` is the result of
`version.GetVersion()`, `ParseTolerant` the tolerant parser of the package
`semver`, `AllVersionsFromURL`, `GithubMinikubeReleasesURL` and `DownloadURL`
those of the package `notify`, and `fetch url destination` what the transfer
behind `download` does to the file system and the error it returns. -/
structure Env where
  GOOS : String
  GOARCH : String
  cwd : AbsPath
  TempDir : String
  executablePath : Except GoError String
  statFault : AbsPath → Option Errno
  chmodFault : AbsPath → Option Errno
  renameFault : AbsPath → AbsPath → Option Errno
  runCmd : Cmd → FS → Option GoError × FS
  version : String
  ParseTolerant : String → Except GoError Version
  GithubMinikubeReleasesURL : String
  AllVersionsFromURL : String → Except GoError ReleaseFeed
  DownloadURL : String → String → String → String
  fetch : String → String → FS → Option GoError × FS

/-- The subprocesses started, in order. -/
def commandsRun (log : List Call) : List Cmd :=
  log.filterMap (fun c => match c with
    | .run cmd => some cmd
    | _ => none)

/-- Append one call to the log. -/
def State.record (s : State) (c : Call) : State :=
  { s with log := s.log ++ [c] }

/-- The call `out.Styled(style, format, vars)`. -/
def outStyled (st : Style) (format : String) (vars : List (String × String)) (s : State) :
    State :=
  s.record (.styled st format vars)

/-- The call `out.Step(style, format, vars)`. -/
def outStep (st : Style) (format : String) (vars : List (String × String)) (s : State) :
    State :=
  s.record (.step st format vars)

/-! ## System calls -/

/-- Go's `os.FileInfo`, the part the code reads. -/
structure FileInfo where
  Mode : Nat
  deriving DecidableEq

/-- What `stat` answers on file system `fs`: the mode of the file at `name`, or
a `PathError` when the system refuses or there is no file. -/
def statFile (env : Env) (fs : FS) (name : String) : Except GoError FileInfo :=
  let p := resolve env.GOOS env.cwd name
  match env.statFault p with
  | some errno => .error (.pathError "stat" name errno)
  | none =>
    match fs p with
    | none => .error (.pathError "stat" name .ENOENT)
    | some f => .ok { Mode := f.mode }

/-- What `chmod` does to file system `fs`: it sets the mode of the file at
`name`; a failed call changes nothing. -/
def chmodFile (env : Env) (fs : FS) (name : String) (mode : Nat) : Option GoError × FS :=
  let p := resolve env.GOOS env.cwd name
  match env.chmodFault p with
  | some errno => (some (.pathError "chmod" name errno), fs)
  | none =>
    match fs p with
    | none => (some (.pathError "chmod" name .ENOENT), fs)
    | some f => (none, fun q => if q = p then some { f with mode := mode } else fs q)

/-- What `rename` does to file system `fs`: the file at `oldpath` is afterwards
at `newpath`, replacing what was there, and no longer at `oldpath`; a failed
call changes nothing and gives a `LinkError` naming both paths as given. -/
def renameFile (env : Env) (fs : FS) (oldpath newpath : String) : Option GoError × FS :=
  let src := resolve env.GOOS env.cwd oldpath
  let dst := resolve env.GOOS env.cwd newpath
  match env.renameFault src dst with
  | some errno => (some (.linkError "rename" oldpath newpath errno), fs)
  | none =>
    match fs src with
    | none => (some (.linkError "rename" oldpath newpath .ENOENT), fs)
    | some f => (none, fun q => if q = dst then some f else if q = src then none else fs q)

/-- Go's `os.Stat(name)`. -/
def osStat (env : Env) (name : String) (s : State) : Except GoError FileInfo × State :=
  (statFile env s.fs name, s.record (.stat name))

/-- Go's `os.Chmod(name, mode)`. -/
def osChmod (env : Env) (name : String) (mode : Nat) (s : State) : Option GoError × State :=
  let r := chmodFile env s.fs name mode
  (r.1, { fs := r.2, log := s.log ++ [.chmod name mode] })

/-- Go's `os.Rename(oldpath, newpath)`. -/
def osRename (env : Env) (oldpath newpath : String) (s : State) : Option GoError × State :=
  let r := renameFile env s.fs oldpath newpath
  (r.1, { fs := r.2, log := s.log ++ [.rename oldpath newpath] })

/-- Go's `cmd.Run()`: start the command, wait for it, return its error. -/
def cmdRun (env : Env) (cmd : Cmd) (s : State) : Option GoError × State :=
  let r := env.runCmd cmd s.fs
  (r.1, { fs := r.2, log := s.log ++ [.run cmd] })

/-- Modelled from the spec: `util.GetBinaryExecutePath` (package `pkg/util`, not
in the source tree) gives the absolute path of the running executable, or an
error; the environment holds its result. -/
def GetBinaryExecutePath (env : Env) (s : State) : Except GoError String × State :=
  (env.executablePath, s.record .executablePath)

/-! ## `upgrade.go`: the swap -/

/-- The function `replaceMinikubeBinary(new string) error` of `upgrade.go`. -/
def replaceMinikubeBinary (env : Env) (new : String) (s : State) : Option GoError × State :=
  match GetBinaryExecutePath env s with
  | (.error err, s1) => (some err, s1)
  | (.ok old, s1) =>
    if env.GOOS = "windows" then
      let baseName := filepathBase env.GOOS old
      match osRename env old (baseName ++ ".old") s1 with
      | (some err, s2) => (some err, s2)
      | (none, s2) => osRename env new old s2
    else if env.GOOS = "linux" ∨ env.GOOS = "darwin" then
      match osStat env old s1 with
      | (.error err, s2) => (some err, s2)
      | (.ok oldFileInfo, s2) =>
        match osChmod env new oldFileInfo.Mode s2 with
        | (some err, s3) => (some err, s3)
        | (none, s3) =>
          match osRename env new old s3 with
          | (some err, s4) =>
            if IsPermission err then
              let s5 := outStyled .Warning "Please provide root privileges to continue." [] s4
              let cmd := execCommand "sudo" ["mv", new, old]
              let cmd := { cmd with Stdin := some .Stdin }
              let cmd := { cmd with Stdout := some .Stdout }
              cmdRun env cmd s5
            else (some err, s4)
          | (none, s4) => (none, s4)
    else (some (Errorf "unsupported platform: " env.GOOS), s1)

/-! ## `download/minikube.go` -/

/-- The function `minikubeWithOSArchAndChecksumURL(version string) string`. -/
def minikubeWithOSArchAndChecksumURL (env : Env) (version : String) : String :=
  let base := env.DownloadURL version env.GOOS env.GOARCH
  base ++ "?checksum=file:" ++ base ++ ".sha256"

/-- Modelled from the spec: the package's `download(url, destination)` (not in
the source tree) retrieves the artifact to `destination`, checking its
integrity itself, or fails. -/
def download (env : Env) (url destination : String) (s : State) : Option GoError × State :=
  let r := env.fetch url destination s.fs
  (r.1, { fs := r.2, log := s.log ++ [.download url destination] })

/-- The function `Minikube(version, destination string) error`. -/
def Minikube (env : Env) (version destination : String) (s : State) : Option GoError × State :=
  let s1 := outStep .FileDownload "Downloading minikube \x7b\x7b.version\x7d\x7d:"
    [("version", version)] s
  let archURL := minikubeWithOSArchAndChecksumURL env version
  match download env archURL destination s1 with
  | (some err, s2) =>
    (some (.wrapped err "download"),
      s2.record (.klogInfo ("failed to download minikube: " ++ err.Error ++ ".")))
  | (none, s2) => (none, s2)

/-! ## `upgrade.go`: the command -/

/-- The function `downloadMinikubeToTemp(version string) (string, error)`. -/
def downloadMinikubeToTemp (env : Env) (version : String) (s : State) :
    (String × Option GoError) × State :=
  let dst := filepathJoin env.GOOS env.TempDir "minikube"
  match Minikube env version dst s with
  | (some err, s1) => (("", some err), s1)
  | (none, s1) => ((dst, none), s1)

/-- The function `getLatestMinikubeVersion() (string, error)`. -/
def getLatestMinikubeVersion (env : Env) (s : State) : (String × Option GoError) × State :=
  let s1 := s.record (.fetchVersions env.GithubMinikubeReleasesURL)
  match env.AllVersionsFromURL env.GithubMinikubeReleasesURL with
  | .error err => (("", some err), s1)
  | .ok r =>
    match r.Releases with
    | [] => (("", some (.errorString "update server returned an empty list")), s1)
    | first :: _ => ((first.Name, none), s1)

/-- The reasons the command gives when it fails. -/
inductive Reason
  | InetVersionUnavailable | UpgradeMinikubeFailed
  deriving DecidableEq

/-- Modelled from the spec: how a run of the command ends. It returns (exit
code 0), or `exit.Error` (package `exit`, not in the source tree) ends the
process with a failure, a reason, a message and the error: every failure is
fatal to the upgrade attempt. -/
inductive Outcome
  | returned
  | exited (r : Reason) (msg : String) (err : GoError)
  deriving DecidableEq

/-- The `Run` function of `upgradeCmd`. Nothing runs after a call of
`exit.Error`. -/
def upgradeCmdRun (env : Env) (s : State) : Outcome × State :=
  let currentVersion := env.version
  let s1 := outStep .Usage "You\x27re currently using version: \x7b\x7b.version\x7d\x7d"
    [("version", currentVersion)] s
  match env.ParseTolerant env.version with
  | .error err => (.exited .InetVersionUnavailable "Unable to parse current version" err, s1)
  | .ok currentSemVer =>
    let s2 := outStep .HealthCheck "Checking for the latest version ..." [] s1
    match getLatestMinikubeVersion env s2 with
    | ((_, some err), s3) =>
      (.exited .InetVersionUnavailable "Unable to fetch latest version info" err, s3)
    | ((latestVersion, none), s3) =>
      match env.ParseTolerant latestVersion with
      | .error err => (.exited .InetVersionUnavailable "Unable to parse latest version" err, s3)
      | .ok latestSemVer =>
        if currentSemVer.GTE latestSemVer then
          (.returned,
            outStyled .Verifying "You\x27re already using the latest version of minikube." [] s3)
        else
          let s4 := outStyled .Fileserver
            "A new version of minikube is available: \x7b\x7b.latestVersion\x7d\x7d\n"
            [("latestVersion", latestVersion)] s3
          match downloadMinikubeToTemp env latestVersion s4 with
          | ((_, some err), s5) =>
            (.exited .UpgradeMinikubeFailed "Unable to download minikube" err, s5)
          | ((newBinary, none), s5) =>
            match replaceMinikubeBinary env newBinary s5 with
            | (some err, s6) =>
              (.exited .UpgradeMinikubeFailed "Unable to replace old minikube" err, s6)
            | (none, s6) => (.returned, outStyled .Success "upgraded successfully!" [] s6)

/-! ## Vocabulary for the log of a run of the command -/

/-- The calls every run of the command makes up to the fetch of the release
feed, when the current version parses. -/
def preambleCalls (env : Env) : List Call :=
  [.step .Usage "You\x27re currently using version: \x7b\x7b.version\x7d\x7d"
      [("version", env.version)],
    .step .HealthCheck "Checking for the latest version ..." [],
    .fetchVersions env.GithubMinikubeReleasesURL]

/-- The message of the command when no upgrade is needed. -/
def upToDateCall : Call :=
  .styled .Verifying "You\x27re already using the latest version of minikube." []

/-- The calls from the announcement of version `latestVersion` up to its
download. -/
def downloadCalls (env : Env) (latestVersion : String) : List Call :=
  [.styled .Fileserver
      "A new version of minikube is available: \x7b\x7b.latestVersion\x7d\x7d\n"
      [("latestVersion", latestVersion)],
    .step .FileDownload "Downloading minikube \x7b\x7b.version\x7d\x7d:"
      [("version", latestVersion)],
    .download (minikubeWithOSArchAndChecksumURL env latestVersion)
      (filepathJoin env.GOOS env.TempDir "minikube")]

/-! ## Concrete scenarios -/

/-- A table standing for the tolerant parser on the version strings of the
scenarios. -/
def sampleParse (v : String) : Except GoError Version :=
  if v = "v1.30.0" ∨ v = "1.30.0" then
    .ok { Major := 1, Minor := 30, Patch := 0, Pre := [], Build := [] }
  else if v = "v1.31.0" ∨ v = "1.31.0" then
    .ok { Major := 1, Minor := 31, Patch := 0, Pre := [], Build := [] }
  else .error (.errorString "Invalid character(s) found in major number")

/-- The old binary of the scenarios, mode `0755`. -/
def oldBinary : File := { content := [111, 108, 100], mode := 0o755 }

/-- The downloaded binary of the scenarios, mode `0644`. -/
def newBinary : File := { content := [110, 101, 119], mode := 0o644 }

/-- A Linux host: the executable is `/usr/local/bin/minikube`, the download is
at `/tmp/minikube`, no system call is refused, the feed lists 1.31.0 first, the
transfer writes the new binary, and a subprocess `sudo mv a b` moves the file. -/
def linuxEnv : Env where
  GOOS := "linux"
  GOARCH := "amd64"
  cwd := ["home", "me"]
  TempDir := "/tmp"
  executablePath := .ok "/usr/local/bin/minikube"
  statFault := fun _ => none
  chmodFault := fun _ => none
  renameFault := fun _ _ => none
  runCmd := fun cmd fs =>
    match cmd.Args with
    | [_, _, a, b] =>
      match fs (resolve "linux" ["home", "me"] a) with
      | some f =>
        (none, fun q => if q = resolve "linux" ["home", "me"] b then some f
          else if q = resolve "linux" ["home", "me"] a then none else fs q)
      | none => (some (.exitError 1), fs)
    | _ => (some (.exitError 1), fs)
  version := "v1.30.0"
  ParseTolerant := sampleParse
  GithubMinikubeReleasesURL := "https://storage.googleapis.com/minikube/releases-v2.json"
  AllVersionsFromURL := fun _ => .ok { Releases := [{ Name := "v1.31.0" }, { Name := "v1.30.0" }] }
  DownloadURL := fun v os arch =>
    "https://storage.googleapis.com/minikube/releases/" ++ v ++ "/minikube-" ++ os ++ "-" ++ arch
  fetch := fun _ dst fs =>
    (none, fun q => if q = resolve "linux" ["home", "me"] dst then some newBinary else fs q)

/-- The Linux file system of the scenarios: the old binary installed, the new
one downloaded. -/
def linuxFS : FS := fun q =>
  if q = ["usr", "local", "bin", "minikube"] then some oldBinary
  else if q = ["tmp", "minikube"] then some newBinary
  else none

/-- The Linux host with the install directory owned by root: the rename is
refused with `EACCES`. -/
def linuxRootOwnedEnv : Env :=
  { linuxEnv with renameFault := fun _ _ => some .EACCES }

/-- The Linux host facing a feed without releases. -/
def linuxEmptyFeedEnv : Env :=
  { linuxEnv with AllVersionsFromURL := fun _ => .ok { Releases := [] } }

/-- A Windows host: the executable is `C:\tools\minikube.exe`, the working
directory `C:\Users\me`, the download at `C:\Temp\minikube`. -/
def windowsEnv : Env :=
  { linuxEnv with
    GOOS := "windows"
    cwd := ["C:", "Users", "me"]
    TempDir := "C:\\Temp"
    executablePath := .ok "C:\\tools\\minikube.exe"
    runCmd := fun _ fs => (some (.execError "sudo" "executable file not found in %PATH%"), fs)
    fetch := fun _ dst fs =>
      (none, fun q => if q = resolve "windows" ["C:", "Users", "me"] dst then some newBinary
        else fs q) }

/-- The Windows file system of the scenarios. -/
def windowsFS : FS := fun q =>
  if q = ["C:", "tools", "minikube.exe"] then some oldBinary
  else if q = ["C:", "Temp", "minikube"] then some newBinary
  else none

/-- The Windows host where the downloaded file is in use: moving it to the
target is refused with `EBUSY`, every other rename is allowed. -/
def windowsStagedBusyEnv : Env :=
  { windowsEnv with
    renameFault := fun src _ => if src = ["C:", "Temp", "minikube"] then some .EBUSY else none }

/-- The Windows host where the installed file is in use: moving it away is
refused with `EBUSY`. -/
def windowsTargetBusyEnv : Env :=
  { windowsEnv with
    renameFault := fun src _ =>
      if src = ["C:", "tools", "minikube.exe"] then some .EBUSY else none }

/-- The start of a run on the Linux host: nothing logged yet. -/
def linuxStart : State := { fs := linuxFS, log := [] }

/-- The start of a run on the Windows host: nothing logged yet. -/
def windowsStart : State := { fs := windowsFS, log := [] }

/-- A NetBSD host without a mounted process file system: the path of the
executable cannot be read. -/
def netbsdEnv : Env :=
  { linuxEnv with
    GOOS := "netbsd"
    executablePath := .error (.pathError "readlink" "/proc/curproc/exe" .ENOENT) }

/-- A FreeBSD host on which the path of the executable is known. -/
def freebsdEnv : Env :=
  { linuxEnv with GOOS := "freebsd" }

/-- The Linux host on which the installed binary cannot be inspected: `stat` is
refused with `EACCES`. -/
def linuxUnreadableEnv : Env :=
  { linuxEnv with statFault := fun _ => some .EACCES }

/-- An ordinary failure of a rename: the bare `LinkError` of a `rename` call,
as `os.Rename` returns it. -/
def GoError.isRenameFailure : GoError → Bool
  | .linkError op _ _ _ => op == "rename"
  | _ => false

/-! ## Lemmas -/

/-- The comparison of two identifiers gives 0 exactly when they are the same identifier. -/
theorem prCompare_eq_zero_iff (x y : PRVersion) : x.Compare y = 0 ↔ x.same y := by
  unfold PRVersion.Compare PRVersion.same
  cases hx : x.IsNum <;> cases hy : y.IsNum <;> simp <;> split_ifs <;> simp_all

/-- The comparison of two identifiers gives -1 exactly when the first has lower
precedence. -/
theorem prCompare_eq_neg_one_iff (x y : PRVersion) : x.Compare y = -1 ↔ x.lower y := by
  unfold PRVersion.Compare PRVersion.lower
  have e : (true = false) = False := by simp
  cases hx : x.IsNum <;> cases hy : y.IsNum
  · simp only [Bool.false_and, Bool.not_false, Bool.and_self, Bool.and_false, Bool.not_true,
      Bool.true_and, Bool.and_true, if_false, if_true, false_and, true_and, and_false, and_true,
      false_or, or_false, Bool.false_eq_true, gt_iff_lt]
    by_cases h : x.VersionStr = y.VersionStr
    · rw [if_pos h, h]; simp
    · rw [if_neg h]
      by_cases h2 : y.VersionStr < x.VersionStr
      · rw [if_pos h2]
        constructor
        · intro h3; simp at h3
        · intro h3; exact absurd h3 (lt_asymm h2)
      · rw [if_neg h2]
        constructor
        · intro _; exact lt_of_le_of_ne (not_lt.mp h2) h
        · intro _; rfl
  · simp
  · simp
  · simp only [Bool.false_and, Bool.not_false, Bool.and_self, Bool.and_false, Bool.not_true,
      Bool.true_and, Bool.and_true, if_false, if_true, false_and, true_and, and_false, and_true,
      false_or, or_false, Bool.false_eq_true, gt_iff_lt, e]
    split_ifs <;> constructor <;> intro h9 <;> first | omega | exact h9.elim

/-- The comparison of two identifiers gives -1, 0 or 1. -/
theorem prCompare_cases (x y : PRVersion) :
    x.Compare y = -1 ∨ x.Compare y = 0 ∨ x.Compare y = 1 := by
  unfold PRVersion.Compare
  split_ifs <;> simp

/-- The comparison of two pre-release lists gives -1, 0 or 1. -/
theorem comparePre_cases (xs ys : List PRVersion) :
    comparePre xs ys = -1 ∨ comparePre xs ys = 0 ∨ comparePre xs ys = 1 := by
  induction xs generalizing ys with
  | nil => cases ys <;> simp [comparePre]
  | cons x xs ih =>
    cases ys with
    | nil => simp [comparePre]
    | cons y ys =>
      simp only [comparePre]
      split_ifs
      · exact ih ys
      · simp
      · simp

/-- The comparison of two pre-release lists gives -1 exactly when the first has
lower precedence. -/
theorem comparePre_eq_neg_one_iff (xs ys : List PRVersion) :
    comparePre xs ys = -1 ↔ preLower xs ys := by
  induction xs generalizing ys with
  | nil => cases ys <;> simp [comparePre, preLower]
  | cons x xs ih =>
    cases ys with
    | nil => simp [comparePre, preLower]
    | cons y ys =>
      simp only [comparePre, preLower, ← prCompare_eq_neg_one_iff,
        ← prCompare_eq_zero_iff, ← ih ys]
      rcases prCompare_cases x y with h | h | h <;> simp [h]

/-- The comparison of two versions gives -1, 0 or 1. -/
theorem versionCompare_cases (v o : Version) :
    v.Compare o = -1 ∨ v.Compare o = 0 ∨ v.Compare o = 1 := by
  unfold Version.Compare
  split_ifs <;> first | simp | exact comparePre_cases _ _

/-- The comparison of two versions gives -1 exactly when the first is strictly
less under semantic-version ordering. -/
theorem versionCompare_eq_neg_one_iff (v o : Version) : v.Compare o = -1 ↔ v.precedes o := by
  unfold Version.Compare Version.precedes
  rw [← comparePre_eq_neg_one_iff]
  rcases lt_trichotomy v.Major o.Major with h1 | h1 | h1
  · simp [h1, Nat.ne_of_lt h1, Nat.lt_asymm h1]
  · rcases lt_trichotomy v.Minor o.Minor with h2 | h2 | h2
    · simp [h1, h2, Nat.ne_of_lt h2, Nat.lt_asymm h2]
    · rcases lt_trichotomy v.Patch o.Patch with h3 | h3 | h3
      · simp [h1, h2, h3, Nat.ne_of_lt h3, Nat.lt_asymm h3]
      · cases hv : v.Pre <;> cases ho : o.Pre <;> simp [h1, h2, h3, comparePre]
      · simp [h1, h2, h3, Nat.ne_of_gt h3, Nat.lt_asymm h3]
    · simp [h1, h2, Nat.ne_of_gt h2, Nat.lt_asymm h2]
  · simp [h1, Nat.ne_of_gt h1, Nat.lt_asymm h1]

/-- The test `GTE` holds exactly when the first version is not strictly less than
the second. -/
theorem versionGTE_iff (v o : Version) : v.GTE o = true ↔ ¬ v.precedes o := by
  rw [← versionCompare_eq_neg_one_iff]
  unfold Version.GTE
  rcases versionCompare_cases v o with h | h | h <;> simp [h]

/-- Every version is greater than or equal to itself. -/
theorem versionGTE_self (v : Version) : v.GTE v = true := by
  rw [versionGTE_iff]
  unfold Version.precedes
  have h : ∀ xs : List PRVersion, ¬ preLower xs xs := by
    intro xs
    induction xs with
    | nil => simp [preLower]
    | cons x xs ih =>
      simp only [preLower, not_or, not_and]
      refine ⟨?_, fun _ => ih⟩
      unfold PRVersion.lower
      cases x.IsNum <;> simp
  simp [h]

/-- A failed rename leaves the file system as it was. -/
theorem renameFile_fs_of_error (env : Env) (fs : FS) (a b : String) (err : GoError)
    (h : (renameFile env fs a b).1 = some err) : (renameFile env fs a b).2 = fs := by
  unfold renameFile at h ⊢
  cases hf : env.renameFault (resolve env.GOOS env.cwd a) (resolve env.GOOS env.cwd b) with
  | some e => simp [hf]
  | none =>
    cases hs : fs (resolve env.GOOS env.cwd a) with
    | none => simp [hf, hs]
    | some f => simp [hf, hs] at h

/-- The error of a failed rename is a `LinkError` of `rename` naming the two paths
as given. -/
theorem renameFile_error_form (env : Env) (fs : FS) (a b : String) (err : GoError)
    (h : (renameFile env fs a b).1 = some err) : ∃ errno, err = .linkError "rename" a b errno := by
  unfold renameFile at h
  cases hf : env.renameFault (resolve env.GOOS env.cwd a) (resolve env.GOOS env.cwd b) with
  | some e => simp [hf] at h; exact ⟨e, h.symm⟩
  | none =>
    cases hs : fs (resolve env.GOOS env.cwd a) with
    | none => simp [hf, hs] at h; exact ⟨.ENOENT, h.symm⟩
    | some f => simp [hf, hs] at h

/-- A failed chmod leaves the file system as it was. -/
theorem chmodFile_fs_of_error (env : Env) (fs : FS) (a : String) (m : Nat) (err : GoError)
    (h : (chmodFile env fs a m).1 = some err) : (chmodFile env fs a m).2 = fs := by
  unfold chmodFile at h ⊢
  cases hf : env.chmodFault (resolve env.GOOS env.cwd a) with
  | some e => simp [hf]
  | none =>
    cases hs : fs (resolve env.GOOS env.cwd a) with
    | none => simp [hf, hs]
    | some f => simp [hf, hs] at h

/-- The subprocesses of two logs in a row. -/
theorem commandsRun_append (l1 l2 : List Call) :
    commandsRun (l1 ++ l2) = commandsRun l1 ++ commandsRun l2 := by
  simp [commandsRun, List.filterMap_append]

/-- The swap on Linux and macOS, once the path of the executable is known, written
out over the three system calls. -/
theorem replace_posix_unfold (env : Env) (new old : String) (s : State)
    (hos : env.GOOS = "linux" ∨ env.GOOS = "darwin")
    (hexe : env.executablePath = .ok old) :
    replaceMinikubeBinary env new s =
      match statFile env s.fs old with
      | .error err => (some err, { fs := s.fs, log := s.log ++ [.executablePath, .stat old] })
      | .ok info =>
        match chmodFile env s.fs new info.Mode with
        | (some err, fs1) =>
          (some err,
            { fs := fs1, log := s.log ++ [.executablePath, .stat old, .chmod new info.Mode] })
        | (none, fs1) =>
          match renameFile env fs1 new old with
          | (none, fs2) =>
            (none, { fs := fs2, log := s.log ++
              [.executablePath, .stat old, .chmod new info.Mode, .rename new old] })
          | (some err, fs2) =>
            if IsPermission err then
              ((env.runCmd (Cmd.mk "sudo" ["sudo", "mv", new, old] (some .Stdin) (some .Stdout) none) fs2).1,
                { fs := (env.runCmd (Cmd.mk "sudo" ["sudo", "mv", new, old] (some .Stdin) (some .Stdout) none) fs2).2,
                  log := s.log ++ [.executablePath, .stat old, .chmod new info.Mode,
                    .rename new old,
                    .styled .Warning "Please provide root privileges to continue." [],
                    .run (Cmd.mk "sudo" ["sudo", "mv", new, old] (some .Stdin) (some .Stdout) none)] })
            else
              (some err, { fs := fs2, log := s.log ++
                [.executablePath, .stat old, .chmod new info.Mode, .rename new old] }) := by
  have hnw : env.GOOS ≠ "windows" := by
    rcases hos with h | h <;> rw [h] <;> decide
  simp only [replaceMinikubeBinary, GetBinaryExecutePath, hexe, hnw, hos, if_true, if_false,
    osStat, osChmod, osRename, cmdRun, outStyled, State.record, execCommand]
  cases h1 : statFile env s.fs old with
  | error e => simp
  | ok info =>
    simp only
    cases h2 : chmodFile env s.fs new info.Mode with
    | mk e2 fs1 =>
      cases e2 with
      | some e => simp
      | none =>
        simp only
        cases h3 : renameFile env fs1 new old with
        | mk e3 fs2 =>
          cases e3 with
          | none => simp
          | some e =>
            simp only
            split_ifs <;> simp

/-- The swap on Windows, once the path of the executable is known, written out
over the two renames. -/
theorem replace_windows_unfold (env : Env) (new old : String) (s : State)
    (hos : env.GOOS = "windows")
    (hexe : env.executablePath = .ok old) :
    replaceMinikubeBinary env new s =
      match renameFile env s.fs old (filepathBase env.GOOS old ++ ".old") with
      | (some err, fs1) =>
        (some err, { fs := fs1, log := s.log ++
          [.executablePath, .rename old (filepathBase env.GOOS old ++ ".old")] })
      | (none, fs1) =>
        ((renameFile env fs1 new old).1,
          { fs := (renameFile env fs1 new old).2, log := s.log ++
            [.executablePath, .rename old (filepathBase env.GOOS old ++ ".old"),
              .rename new old] }) := by
  simp only [replaceMinikubeBinary, GetBinaryExecutePath, hexe, hos, if_true,
    osRename, State.record]
  cases h1 : renameFile env s.fs old (filepathBase "windows" old ++ ".old") with
  | mk e1 fs1 =>
    cases e1 <;> simp

/-- The swap only appends to the log, and its first call asks for the path of the
executable. -/
theorem replace_log_extends (env : Env) (new : String) (s : State) :
    ∃ calls, (replaceMinikubeBinary env new s).2.log = s.log ++ Call.executablePath :: calls := by
  cases hexe : env.executablePath with
  | error e =>
    exact ⟨[], by simp [replaceMinikubeBinary, GetBinaryExecutePath, hexe, State.record]⟩
  | ok old =>
    by_cases hw : env.GOOS = "windows"
    · rw [replace_windows_unfold env new old s hw hexe]
      cases renameFile env s.fs old (filepathBase env.GOOS old ++ ".old") with
      | mk e fs1 => cases e <;> simp
    · by_cases hp : env.GOOS = "linux" ∨ env.GOOS = "darwin"
      · rw [replace_posix_unfold env new old s hp hexe]
        cases statFile env s.fs old with
        | error e => simp
        | ok info =>
          simp only
          cases chmodFile env s.fs new info.Mode with
          | mk e2 fs1 =>
            cases e2 with
            | some e => simp
            | none =>
              simp only
              cases renameFile env fs1 new old with
              | mk e3 fs2 =>
                cases e3 with
                | none => simp
                | some e => simp only; split_ifs <;> simp
      · exact ⟨[], by simp [replaceMinikubeBinary, GetBinaryExecutePath, hexe, hw, hp,
          State.record]⟩

/-- The command, once both versions parse, written out over the download and the
swap. -/
theorem upgradeCmdRun_unfold (env : Env) (s : State) (cur lat : Version) (first : Release)
    (rest : List Release)
    (hcur : env.ParseTolerant env.version = .ok cur)
    (hfeed : env.AllVersionsFromURL env.GithubMinikubeReleasesURL =
      .ok { Releases := first :: rest })
    (hlat : env.ParseTolerant first.Name = .ok lat) :
    upgradeCmdRun env s =
      if cur.GTE lat then
        (.returned, { fs := s.fs, log := s.log ++
          [.step .Usage "You\x27re currently using version: \x7b\x7b.version\x7d\x7d"
              [("version", env.version)],
            .step .HealthCheck "Checking for the latest version ..." [],
            .fetchVersions env.GithubMinikubeReleasesURL,
            .styled .Verifying "You\x27re already using the latest version of minikube." []] })
      else
        match env.fetch (minikubeWithOSArchAndChecksumURL env first.Name)
            (filepathJoin env.GOOS env.TempDir "minikube") s.fs with
        | (some err, fs1) =>
          (.exited .UpgradeMinikubeFailed "Unable to download minikube" (.wrapped err "download"),
            { fs := fs1, log := s.log ++
              [.step .Usage "You\x27re currently using version: \x7b\x7b.version\x7d\x7d"
                  [("version", env.version)],
                .step .HealthCheck "Checking for the latest version ..." [],
                .fetchVersions env.GithubMinikubeReleasesURL,
                .styled .Fileserver
                  "A new version of minikube is available: \x7b\x7b.latestVersion\x7d\x7d\n"
                  [("latestVersion", first.Name)],
                .step .FileDownload "Downloading minikube \x7b\x7b.version\x7d\x7d:"
                  [("version", first.Name)],
                .download (minikubeWithOSArchAndChecksumURL env first.Name)
                  (filepathJoin env.GOOS env.TempDir "minikube"),
                .klogInfo ("failed to download minikube: " ++ err.Error ++ ".")] })
        | (none, fs1) =>
          match replaceMinikubeBinary env (filepathJoin env.GOOS env.TempDir "minikube")
              { fs := fs1, log := s.log ++
                [.step .Usage "You\x27re currently using version: \x7b\x7b.version\x7d\x7d"
                    [("version", env.version)],
                  .step .HealthCheck "Checking for the latest version ..." [],
                  .fetchVersions env.GithubMinikubeReleasesURL,
                  .styled .Fileserver
                    "A new version of minikube is available: \x7b\x7b.latestVersion\x7d\x7d\n"
                    [("latestVersion", first.Name)],
                  .step .FileDownload "Downloading minikube \x7b\x7b.version\x7d\x7d:"
                    [("version", first.Name)],
                  .download (minikubeWithOSArchAndChecksumURL env first.Name)
                    (filepathJoin env.GOOS env.TempDir "minikube")] } with
          | (some err, s6) =>
            (.exited .UpgradeMinikubeFailed "Unable to replace old minikube" err, s6)
          | (none, s6) =>
            (.returned, { fs := s6.fs, log := s6.log ++
              [.styled .Success "upgraded successfully!" []] }) := by
  simp only [upgradeCmdRun, hcur, getLatestMinikubeVersion, hfeed, hlat, outStep, outStyled,
    State.record, downloadMinikubeToTemp, Minikube, download]
  split_ifs with hg
  · simp
  · cases hf : env.fetch (minikubeWithOSArchAndChecksumURL env first.Name)
        (filepathJoin env.GOOS env.TempDir "minikube") s.fs with
    | mk e fs1 =>
      cases e with
      | some e => simp
      | none =>
        simp only [List.append_assoc, List.singleton_append, List.cons_append, List.nil_append]

/-! ## The claims -/

/-- C1: when the current version and the newest release of the feed both parse, the
command calls the downloader if and only if the current version is strictly
less than the latest under semantic-version ordering; it calls the swap exactly
when moreover the download succeeded, and then on the downloaded file. When the
current version is not less (in particular when the two are equal) the command
returns after the message that minikube is up to date, having made no download
and no swap and leaving the file system as it was. -/
theorem upgrade_proceeds_iff_current_precedes_latest (env : Env) (s : State)
    (cur lat : Version) (first : Release) (rest : List Release)
    (hcur : env.ParseTolerant env.version = .ok cur)
    (hfeed : env.AllVersionsFromURL env.GithubMinikubeReleasesURL =
      .ok { Releases := first :: rest })
    (hlat : env.ParseTolerant first.Name = .ok lat) :
    ∃ calls, (upgradeCmdRun env s).2.log = s.log ++ calls ∧
      ((∃ url dst, Call.download url dst ∈ calls) ↔ cur.precedes lat) ∧
      (Call.executablePath ∈ calls ↔
        (cur.precedes lat ∧
          (env.fetch (minikubeWithOSArchAndChecksumURL env first.Name)
            (filepathJoin env.GOOS env.TempDir "minikube") s.fs).1 = none)) ∧
      (cur.precedes lat →
        (env.fetch (minikubeWithOSArchAndChecksumURL env first.Name)
            (filepathJoin env.GOOS env.TempDir "minikube") s.fs).1 = none →
        (upgradeCmdRun env s).2.fs =
          (replaceMinikubeBinary env (filepathJoin env.GOOS env.TempDir "minikube")
            { fs := (env.fetch (minikubeWithOSArchAndChecksumURL env first.Name)
                (filepathJoin env.GOOS env.TempDir "minikube") s.fs).2,
              log := s.log ++ preambleCalls env ++ downloadCalls env first.Name }).2.fs) ∧
      (¬ cur.precedes lat →
        (upgradeCmdRun env s).1 = .returned ∧ (upgradeCmdRun env s).2.fs = s.fs ∧
        calls = preambleCalls env ++ [upToDateCall]) ∧
      (cur = lat → ¬ cur.precedes lat) := by
  have hirr : cur = lat → ¬ cur.precedes lat := by
    intro h
    rw [← versionGTE_iff, h]
    exact versionGTE_self lat
  rw [upgradeCmdRun_unfold env s cur lat first rest hcur hfeed hlat]
  by_cases hp : cur.precedes lat
  · have hg : cur.GTE lat = false := by
      cases h : cur.GTE lat with
      | false => rfl
      | true => exact absurd hp ((versionGTE_iff cur lat).mp h)
    simp only [hg, Bool.false_eq_true, if_false]
    cases hf : env.fetch (minikubeWithOSArchAndChecksumURL env first.Name)
        (filepathJoin env.GOOS env.TempDir "minikube") s.fs with
    | mk e fs1 =>
      cases e with
      | some e =>
        refine ⟨_, rfl, ?_, ?_, ?_, ?_, hirr⟩
        · simp [hp]
        · simp [hp]
        · intro _ h; simp at h
        · intro h; exact absurd hp h
      | none =>
        simp only
        obtain ⟨more, hmore⟩ := replace_log_extends env
          (filepathJoin env.GOOS env.TempDir "minikube")
          { fs := fs1, log := s.log ++
            [.step .Usage "You\x27re currently using version: \x7b\x7b.version\x7d\x7d"
                [("version", env.version)],
              .step .HealthCheck "Checking for the latest version ..." [],
              .fetchVersions env.GithubMinikubeReleasesURL,
              .styled .Fileserver
                "A new version of minikube is available: \x7b\x7b.latestVersion\x7d\x7d\n"
                [("latestVersion", first.Name)],
              .step .FileDownload "Downloading minikube \x7b\x7b.version\x7d\x7d:"
                [("version", first.Name)],
              .download (minikubeWithOSArchAndChecksumURL env first.Name)
                (filepathJoin env.GOOS env.TempDir "minikube")] }
        have hpre : s.log ++ preambleCalls env ++ downloadCalls env first.Name = s.log ++
            [.step .Usage "You\x27re currently using version: \x7b\x7b.version\x7d\x7d"
                [("version", env.version)],
              .step .HealthCheck "Checking for the latest version ..." [],
              .fetchVersions env.GithubMinikubeReleasesURL,
              .styled .Fileserver
                "A new version of minikube is available: \x7b\x7b.latestVersion\x7d\x7d\n"
                [("latestVersion", first.Name)],
              .step .FileDownload "Downloading minikube \x7b\x7b.version\x7d\x7d:"
                [("version", first.Name)],
              .download (minikubeWithOSArchAndChecksumURL env first.Name)
                (filepathJoin env.GOOS env.TempDir "minikube")] := by
          simp [preambleCalls, downloadCalls]
        rw [hpre]
        cases hr : replaceMinikubeBinary env (filepathJoin env.GOOS env.TempDir "minikube")
            { fs := fs1, log := s.log ++
              [.step .Usage "You\x27re currently using version: \x7b\x7b.version\x7d\x7d"
                  [("version", env.version)],
                .step .HealthCheck "Checking for the latest version ..." [],
                .fetchVersions env.GithubMinikubeReleasesURL,
                .styled .Fileserver
                  "A new version of minikube is available: \x7b\x7b.latestVersion\x7d\x7d\n"
                  [("latestVersion", first.Name)],
                .step .FileDownload "Downloading minikube \x7b\x7b.version\x7d\x7d:"
                  [("version", first.Name)],
                .download (minikubeWithOSArchAndChecksumURL env first.Name)
                  (filepathJoin env.GOOS env.TempDir "minikube")] } with
        | mk e6 s6 =>
          rw [hr] at hmore
          simp only at hmore
          cases e6 with
          | some e =>
            simp only [hmore]
            refine ⟨_, by rw [List.append_assoc], ?_, ?_, ?_, ?_, hirr⟩
            · simp only [hp, iff_true]
              exact ⟨minikubeWithOSArchAndChecksumURL env first.Name,
                filepathJoin env.GOOS env.TempDir "minikube", by simp⟩
            · simp [hp]
            · intro _ _; trivial
            · intro h; exact absurd hp h
          | none =>
            simp only [hmore]
            refine ⟨_, by rw [List.append_assoc, List.append_assoc], ?_, ?_, ?_, ?_, hirr⟩
            · simp only [hp, iff_true]
              exact ⟨minikubeWithOSArchAndChecksumURL env first.Name,
                filepathJoin env.GOOS env.TempDir "minikube", by simp⟩
            · simp [hp]
            · intro _ _; trivial
            · intro h; exact absurd hp h
  · have hg : cur.GTE lat = true := (versionGTE_iff cur lat).mpr hp
    simp only [hg, if_true]
    refine ⟨_, rfl, ?_, ?_, ?_, ?_, hirr⟩
    · simp [hp]
    · simp [hp]
    · intro h; exact absurd h hp
    · intro _; simp [preambleCalls, upToDateCall]

/-- C1, instance: on the Linux host at 1.30.0 with 1.31.0 newest in the feed. -/
theorem upgrade_proceeds_iff_current_precedes_latest_witness :
    linuxEnv.ParseTolerant linuxEnv.version =
      .ok { Major := 1, Minor := 30, Patch := 0, Pre := [], Build := [] } ∧
    linuxEnv.ParseTolerant "v1.31.0" =
      .ok { Major := 1, Minor := 31, Patch := 0, Pre := [], Build := [] } ∧
    ∃ calls, (upgradeCmdRun linuxEnv linuxStart).2.log = linuxStart.log ++ calls ∧
      ((∃ url dst, Call.download url dst ∈ calls) ↔
        Version.precedes { Major := 1, Minor := 30, Patch := 0, Pre := [], Build := [] }
          { Major := 1, Minor := 31, Patch := 0, Pre := [], Build := [] }) := by
  obtain ⟨calls, h1, h2, _⟩ := upgrade_proceeds_iff_current_precedes_latest linuxEnv linuxStart
    { Major := 1, Minor := 30, Patch := 0, Pre := [], Build := [] }
    { Major := 1, Minor := 31, Patch := 0, Pre := [], Build := [] }
    { Name := "v1.31.0" } [{ Name := "v1.30.0" }] rfl rfl rfl
  exact ⟨rfl, rfl, calls, h1, h2⟩

/-- C2: when the feed is fetched and its release list is empty,
`getLatestMinikubeVersion` returns the empty string and the error "update
server returned an empty list", and the command ends with a failure (never with
the up-to-date message); when the list is not empty it returns the name of the
first release and no error. -/
theorem empty_release_list_is_an_error (env : Env) (s : State) (feed : ReleaseFeed)
    (hfeed : env.AllVersionsFromURL env.GithubMinikubeReleasesURL = .ok feed) :
    (feed.Releases = [] →
      (getLatestMinikubeVersion env s).1 =
        ("", some (.errorString "update server returned an empty list")) ∧
      (∃ msg err, (upgradeCmdRun env s).1 = .exited .InetVersionUnavailable msg err) ∧
      (∀ cur, env.ParseTolerant env.version = .ok cur →
        upgradeCmdRun env s =
          (.exited .InetVersionUnavailable "Unable to fetch latest version info"
              (.errorString "update server returned an empty list"),
            { fs := s.fs, log := s.log ++ preambleCalls env }))) ∧
    (∀ first rest, feed.Releases = first :: rest →
      (getLatestMinikubeVersion env s).1 = (first.Name, none)) := by
  constructor
  · intro hempty
    refine ⟨by simp [getLatestMinikubeVersion, hfeed, hempty], ?_, ?_⟩
    · cases hcur : env.ParseTolerant env.version with
      | error e =>
        exact ⟨"Unable to parse current version", e, by simp [upgradeCmdRun, hcur]⟩
      | ok cur =>
        exact ⟨"Unable to fetch latest version info",
          .errorString "update server returned an empty list",
          by simp [upgradeCmdRun, hcur, getLatestMinikubeVersion, hfeed, hempty]⟩
    · intro cur hcur
      simp [upgradeCmdRun, hcur, getLatestMinikubeVersion, hfeed, hempty, preambleCalls,
        outStep, State.record]
  · intro first rest hne
    simp [getLatestMinikubeVersion, hfeed, hne]

/-- C2, instance: the Linux host facing a feed without releases. -/
theorem empty_release_list_is_an_error_witness :
    linuxEmptyFeedEnv.AllVersionsFromURL linuxEmptyFeedEnv.GithubMinikubeReleasesURL =
      .ok { Releases := [] } ∧
    (getLatestMinikubeVersion linuxEmptyFeedEnv linuxStart).1 =
      ("", some (.errorString "update server returned an empty list")) ∧
    ∃ msg err, (upgradeCmdRun linuxEmptyFeedEnv linuxStart).1 =
      .exited .InetVersionUnavailable msg err :=
  ⟨rfl,
    ((empty_release_list_is_an_error linuxEmptyFeedEnv linuxStart { Releases := [] } rfl).1 rfl).1,
    ((empty_release_list_is_an_error linuxEmptyFeedEnv linuxStart { Releases := [] } rfl).1
      rfl).2.1⟩

/-- C3: on Linux and macOS, with a staged file and a target file at different
paths, if the swap succeeds without starting a subprocess, then afterwards the
target path holds the staged content with the mode the target had, and there is
no file at the staged path. -/
theorem posix_direct_rename_installs_staged (env : Env) (new old : String) (s : State)
    (staged target : File)
    (hos : env.GOOS = "linux" ∨ env.GOOS = "darwin")
    (hexe : env.executablePath = .ok old)
    (hne : resolve env.GOOS env.cwd new ≠ resolve env.GOOS env.cwd old)
    (hstaged : s.fs (resolve env.GOOS env.cwd new) = some staged)
    (htarget : s.fs (resolve env.GOOS env.cwd old) = some target)
    (hok : (replaceMinikubeBinary env new s).1 = none)
    (hdirect : commandsRun (replaceMinikubeBinary env new s).2.log = commandsRun s.log) :
    (replaceMinikubeBinary env new s).2.fs (resolve env.GOOS env.cwd old) =
      some { content := staged.content, mode := target.mode } ∧
    (replaceMinikubeBinary env new s).2.fs (resolve env.GOOS env.cwd new) = none := by
  rw [replace_posix_unfold env new old s hos hexe] at hok hdirect ⊢
  cases hsf : env.statFault (resolve env.GOOS env.cwd old) with
  | some e => simp [statFile, hsf] at hok
  | none =>
    have h1 : statFile env s.fs old = .ok { Mode := target.mode } := by
      simp [statFile, hsf, htarget]
    rw [h1] at hok hdirect ⊢
    simp only at hok hdirect ⊢
    cases hcf : env.chmodFault (resolve env.GOOS env.cwd new) with
    | some e => simp [chmodFile, hcf] at hok
    | none =>
      have h2 : chmodFile env s.fs new target.mode =
          (none, fun q => if q = resolve env.GOOS env.cwd new then
            some { staged with mode := target.mode } else s.fs q) := by
        simp [chmodFile, hcf, hstaged]
      rw [h2] at hok hdirect ⊢
      simp only at hok hdirect ⊢
      cases hrf : env.renameFault (resolve env.GOOS env.cwd new)
          (resolve env.GOOS env.cwd old) with
      | some e =>
        have h3 : renameFile env (fun q => if q = resolve env.GOOS env.cwd new then
            some { staged with mode := target.mode } else s.fs q) new old =
            (some (.linkError "rename" new old e), fun q =>
              if q = resolve env.GOOS env.cwd new then
                some { staged with mode := target.mode } else s.fs q) := by
          simp [renameFile, hrf]
        rw [h3] at hok hdirect
        simp only at hok hdirect
        cases hp : IsPermission (GoError.linkError "rename" new old e) with
        | false => simp [hp] at hok
        | true => simp [hp, commandsRun_append, commandsRun] at hdirect
      | none =>
        have h3 : renameFile env (fun q => if q = resolve env.GOOS env.cwd new then
            some { staged with mode := target.mode } else s.fs q) new old =
            (none, fun q => if q = resolve env.GOOS env.cwd old then
                some { staged with mode := target.mode }
              else if q = resolve env.GOOS env.cwd new then none
              else if q = resolve env.GOOS env.cwd new then
                some { staged with mode := target.mode } else s.fs q) := by
          simp [renameFile, hrf]
        rw [h3]
        simp [hne]

/-- C3, instance: the Linux host, old binary of mode 0755, download of mode 0644. -/
theorem posix_direct_rename_installs_staged_witness :
    (replaceMinikubeBinary linuxEnv "/tmp/minikube" linuxStart).1 = none ∧
    (replaceMinikubeBinary linuxEnv "/tmp/minikube" linuxStart).2.fs
        (resolve linuxEnv.GOOS linuxEnv.cwd "/usr/local/bin/minikube") =
      some { content := newBinary.content, mode := oldBinary.mode } ∧
    (replaceMinikubeBinary linuxEnv "/tmp/minikube" linuxStart).2.fs
        (resolve linuxEnv.GOOS linuxEnv.cwd "/tmp/minikube") = none :=
  ⟨by decide,
    posix_direct_rename_installs_staged linuxEnv "/tmp/minikube" "/usr/local/bin/minikube"
      linuxStart newBinary oldBinary (Or.inl rfl) rfl (by decide) (by decide) (by decide)
      (by decide) (by decide)⟩

/-- C4: on Linux and macOS, once the mode has been read and applied: if the rename
fails with a permission error the swap starts exactly one subprocess, `sudo`
with the arguments `mv`, the staged path, the target path; if the rename fails
with any other error that error is returned and no subprocess is started; if
the rename succeeds no subprocess is started. -/
theorem posix_elevation_iff_permission_error (env : Env) (new old : String) (s : State)
    (info : FileInfo) (fs1 : FS)
    (hos : env.GOOS = "linux" ∨ env.GOOS = "darwin")
    (hexe : env.executablePath = .ok old)
    (hstat : statFile env s.fs old = .ok info)
    (hchmod : chmodFile env s.fs new info.Mode = (none, fs1)) :
    (∀ err, (renameFile env fs1 new old).1 = some err → IsPermission err = true →
      ∃ cmd, commandsRun (replaceMinikubeBinary env new s).2.log = commandsRun s.log ++ [cmd] ∧
        cmd.Path = "sudo" ∧ cmd.Args = ["sudo", "mv", new, old]) ∧
    (∀ err, (renameFile env fs1 new old).1 = some err → IsPermission err = false →
      (replaceMinikubeBinary env new s).1 = some err ∧
      commandsRun (replaceMinikubeBinary env new s).2.log = commandsRun s.log) ∧
    ((renameFile env fs1 new old).1 = none →
      (replaceMinikubeBinary env new s).1 = none ∧
      commandsRun (replaceMinikubeBinary env new s).2.log = commandsRun s.log) := by
  rw [replace_posix_unfold env new old s hos hexe, hstat]
  simp only [hchmod]
  cases hr : renameFile env fs1 new old with
  | mk e fs2 =>
    cases e with
    | none => simp [commandsRun_append, commandsRun]
    | some e =>
      refine ⟨?_, ?_, ?_⟩
      · intro err h hp
        simp only [Option.some.injEq] at h
        subst h
        simp [hp, commandsRun_append, commandsRun]
      · intro err h hp
        simp only [Option.some.injEq] at h
        subst h
        simp [hp, commandsRun_append, commandsRun]
      · intro h
        simp at h

/-- C4, instance: the Linux host whose install directory is owned by root. -/
theorem posix_elevation_iff_permission_error_witness :
    (renameFile linuxRootOwnedEnv
        (chmodFile linuxRootOwnedEnv linuxFS "/tmp/minikube" 0o755).2
        "/tmp/minikube" "/usr/local/bin/minikube").1 =
      some (.linkError "rename" "/tmp/minikube" "/usr/local/bin/minikube" .EACCES) ∧
    ∃ cmd, commandsRun (replaceMinikubeBinary linuxRootOwnedEnv "/tmp/minikube" linuxStart).2.log =
        commandsRun linuxStart.log ++ [cmd] ∧
      cmd.Path = "sudo" ∧ cmd.Args = ["sudo", "mv", "/tmp/minikube", "/usr/local/bin/minikube"] :=
  ⟨by decide,
    (posix_elevation_iff_permission_error linuxRootOwnedEnv "/tmp/minikube"
      "/usr/local/bin/minikube" linuxStart { Mode := 0o755 }
      (chmodFile linuxRootOwnedEnv linuxFS "/tmp/minikube" 0o755).2
      (Or.inl rfl) rfl rfl rfl).1
      (.linkError "rename" "/tmp/minikube" "/usr/local/bin/minikube" .EACCES)
      (by decide) (by decide)⟩

/-- C5, evaluation of the code: on the Windows host, with the executable in
`C:\tools` and the working directory `C:\Users\me`, the swap succeeds and the
target holds the new binary, but the old binary is at
`C:\Users\me\minikube.exe.old`, and there is no `minikube.exe.old` in
`C:\tools`. -/
theorem windows_old_binary_lands_in_working_directory :
    windowsEnv.cwd = ["C:", "Users", "me"] ∧
    resolve "windows" windowsEnv.cwd "C:\\tools\\minikube.exe" = ["C:", "tools", "minikube.exe"] ∧
    (replaceMinikubeBinary windowsEnv "C:\\Temp\\minikube" windowsStart).1 = none ∧
    (replaceMinikubeBinary windowsEnv "C:\\Temp\\minikube" windowsStart).2.log =
      [.executablePath, .rename "C:\\tools\\minikube.exe" "minikube.exe.old",
        .rename "C:\\Temp\\minikube" "C:\\tools\\minikube.exe"] ∧
    (replaceMinikubeBinary windowsEnv "C:\\Temp\\minikube" windowsStart).2.fs
      ["C:", "tools", "minikube.exe"] = some newBinary ∧
    (replaceMinikubeBinary windowsEnv "C:\\Temp\\minikube" windowsStart).2.fs
      ["C:", "tools", "minikube.exe.old"] = none ∧
    (replaceMinikubeBinary windowsEnv "C:\\Temp\\minikube" windowsStart).2.fs
      ["C:", "Users", "me", "minikube.exe.old"] = some oldBinary := by
  decide

/-- C6: on Windows, if the first rename (the target to its `.old` name) fails, the
swap returns that error, the file system is as it was (the staged file and the
target untouched, no `.old` file), and the only rename attempted is the first. -/
theorem windows_first_rename_failure_aborts (env : Env) (new old : String) (s : State)
    (err : GoError)
    (hos : env.GOOS = "windows")
    (hexe : env.executablePath = .ok old)
    (hfail : (renameFile env s.fs old (filepathBase env.GOOS old ++ ".old")).1 = some err) :
    (replaceMinikubeBinary env new s).1 = some err ∧
    (replaceMinikubeBinary env new s).2.fs = s.fs ∧
    (replaceMinikubeBinary env new s).2.log =
      s.log ++ [.executablePath, .rename old (filepathBase env.GOOS old ++ ".old")] := by
  have hfs := renameFile_fs_of_error env s.fs _ _ err hfail
  simp only [replaceMinikubeBinary, GetBinaryExecutePath, hexe, hos, if_true, osRename,
    State.record] at hfail hfs ⊢
  simp [hfail, hfs]

/-- C6, instance: the Windows host where the installed file is in use. -/
theorem windows_first_rename_failure_aborts_witness :
    (renameFile windowsTargetBusyEnv windowsStart.fs "C:\\tools\\minikube.exe"
        (filepathBase "windows" "C:\\tools\\minikube.exe" ++ ".old")).1 =
      some (.linkError "rename" "C:\\tools\\minikube.exe" "minikube.exe.old" .EBUSY) ∧
    (replaceMinikubeBinary windowsTargetBusyEnv "C:\\Temp\\minikube" windowsStart).1 =
      some (.linkError "rename" "C:\\tools\\minikube.exe" "minikube.exe.old" .EBUSY) ∧
    (replaceMinikubeBinary windowsTargetBusyEnv "C:\\Temp\\minikube" windowsStart).2.fs =
      windowsStart.fs ∧
    (replaceMinikubeBinary windowsTargetBusyEnv "C:\\Temp\\minikube" windowsStart).2.log =
      windowsStart.log ++ [.executablePath,
        .rename "C:\\tools\\minikube.exe"
          (filepathBase "windows" "C:\\tools\\minikube.exe" ++ ".old")] :=
  ⟨by decide,
    windows_first_rename_failure_aborts windowsTargetBusyEnv "C:\\Temp\\minikube"
      "C:\\tools\\minikube.exe" windowsStart
      (.linkError "rename" "C:\\tools\\minikube.exe" "minikube.exe.old" .EBUSY)
      rfl rfl (by decide)⟩

/-- C7, counterexample: on the Windows host where the downloaded file is in use the
first rename succeeds, the second fails and the target path is left empty; the
error returned is the bare rename error with the text of any failed rename, of
the same kind as the error returned when the first rename fails for the same
cause. -/
theorem windows_second_rename_failure_is_an_ordinary_rename_error :
    (replaceMinikubeBinary windowsStagedBusyEnv "C:\\Temp\\minikube" windowsStart).1 =
      some (.linkError "rename" "C:\\Temp\\minikube" "C:\\tools\\minikube.exe" .EBUSY) ∧
    (replaceMinikubeBinary windowsStagedBusyEnv "C:\\Temp\\minikube" windowsStart).2.log =
      [.executablePath, .rename "C:\\tools\\minikube.exe" "minikube.exe.old",
        .rename "C:\\Temp\\minikube" "C:\\tools\\minikube.exe"] ∧
    (replaceMinikubeBinary windowsStagedBusyEnv "C:\\Temp\\minikube" windowsStart).2.fs
      ["C:", "tools", "minikube.exe"] = none ∧
    (replaceMinikubeBinary windowsTargetBusyEnv "C:\\Temp\\minikube" windowsStart).1 =
      some (.linkError "rename" "C:\\tools\\minikube.exe" "minikube.exe.old" .EBUSY) ∧
    ((replaceMinikubeBinary windowsStagedBusyEnv "C:\\Temp\\minikube" windowsStart).1.map
      GoError.isRenameFailure) = some true ∧
    ((replaceMinikubeBinary windowsTargetBusyEnv "C:\\Temp\\minikube" windowsStart).1.map
      GoError.isRenameFailure) = some true ∧
    ((replaceMinikubeBinary windowsStagedBusyEnv "C:\\Temp\\minikube" windowsStart).1.map
      GoError.Error) =
      some "rename C:\\Temp\\minikube C:\\tools\\minikube.exe: device or resource busy" := by
  decide

/-- C7, amended: on Windows, when the first rename succeeds and the second (the
staged file to the target) fails, the swap returns the error of the second
rename as it is, a `LinkError` of `rename` naming the staged and the target
path, and the file system stays as the first rename left it. -/
theorem windows_second_rename_error_returned_as_is (env : Env) (new old : String) (s : State)
    (fs1 : FS) (err : GoError)
    (hos : env.GOOS = "windows")
    (hexe : env.executablePath = .ok old)
    (hfirst : renameFile env s.fs old (filepathBase env.GOOS old ++ ".old") = (none, fs1))
    (hsecond : (renameFile env fs1 new old).1 = some err) :
    (replaceMinikubeBinary env new s).1 = some err ∧
    (∃ errno, err = .linkError "rename" new old errno) ∧
    (replaceMinikubeBinary env new s).2.fs = fs1 ∧
    (replaceMinikubeBinary env new s).2.log =
      s.log ++ [.executablePath, .rename old (filepathBase env.GOOS old ++ ".old"),
        .rename new old] := by
  have hfs := renameFile_fs_of_error env fs1 _ _ err hsecond
  have hform := renameFile_error_form env fs1 _ _ err hsecond
  simp only [replaceMinikubeBinary, GetBinaryExecutePath, hexe, hos, if_true, osRename,
    State.record] at hfirst hsecond hfs ⊢
  simp [hfirst, hsecond, hfs, hform]

/-- C7, amended, instance: the Windows host where the downloaded file is in use. -/
theorem windows_second_rename_error_returned_as_is_witness :
    (replaceMinikubeBinary windowsStagedBusyEnv "C:\\Temp\\minikube" windowsStart).1 =
      some (.linkError "rename" "C:\\Temp\\minikube" "C:\\tools\\minikube.exe" .EBUSY) :=
  (windows_second_rename_error_returned_as_is windowsStagedBusyEnv "C:\\Temp\\minikube"
    "C:\\tools\\minikube.exe" windowsStart
    (renameFile windowsStagedBusyEnv windowsStart.fs "C:\\tools\\minikube.exe"
      (filepathBase "windows" "C:\\tools\\minikube.exe" ++ ".old")).2
    (.linkError "rename" "C:\\Temp\\minikube" "C:\\tools\\minikube.exe" .EBUSY)
    rfl rfl rfl (by decide)).1

/-- C8, evaluation of the code: on the Linux host whose install directory is owned
by root the swap starts `sudo mv` with standard input and output set and
standard error left unset, so the child gets the null device as its standard
error and does not inherit all three streams. -/
theorem elevation_child_stderr_is_null_device :
    commandsRun (replaceMinikubeBinary linuxRootOwnedEnv "/tmp/minikube" linuxStart).2.log =
      [{ Path := "sudo", Args := ["sudo", "mv", "/tmp/minikube", "/usr/local/bin/minikube"],
         Stdin := some .Stdin, Stdout := some .Stdout, Stderr := none }] ∧
    (∀ cmd ∈ commandsRun
        (replaceMinikubeBinary linuxRootOwnedEnv "/tmp/minikube" linuxStart).2.log,
      childHandle cmd.Stdin = .inherited .Stdin ∧ childHandle cmd.Stdout = .inherited .Stdout ∧
      childHandle cmd.Stderr = .devNull ∧ ¬ cmd.inheritsStdStreams) := by
  decide

/-- C9: on Linux and macOS, if reading the mode of the target fails, or applying
it to the staged file fails, the swap returns that error, the file system is
as it was, and no rename and no subprocess is among the calls made. -/
theorem posix_stat_or_chmod_failure_aborts (env : Env) (new old : String) (s : State)
    (err : GoError)
    (hos : env.GOOS = "linux" ∨ env.GOOS = "darwin")
    (hexe : env.executablePath = .ok old)
    (hfail : statFile env s.fs old = .error err ∨
      ∃ info, statFile env s.fs old = .ok info ∧
        (chmodFile env s.fs new info.Mode).1 = some err) :
    (replaceMinikubeBinary env new s).1 = some err ∧
    (replaceMinikubeBinary env new s).2.fs = s.fs ∧
    ∃ calls, (replaceMinikubeBinary env new s).2.log = s.log ++ calls ∧
      (∀ a b, Call.rename a b ∉ calls) ∧ (∀ cmd, Call.run cmd ∉ calls) := by
  have hnw : env.GOOS ≠ "windows" := by
    rcases hos with h | h <;> rw [h] <;> decide
  rcases hfail with h | ⟨info, h1, h2⟩
  · simp only [replaceMinikubeBinary, GetBinaryExecutePath, hexe, hnw, hos, if_true, if_false,
      osStat, State.record, h]
    refine ⟨trivial, trivial, [.executablePath, .stat old], by simp, by simp, by simp⟩
  · have hfs := chmodFile_fs_of_error env s.fs _ _ err h2
    simp only [replaceMinikubeBinary, GetBinaryExecutePath, hexe, hnw, hos, if_true, if_false,
      osStat, osChmod, State.record, h1]
    cases hc : chmodFile env s.fs new info.Mode with
    | mk e fs2 =>
      rw [hc] at h2 hfs
      simp only at h2 hfs
      subst h2
      subst hfs
      refine ⟨rfl, rfl, [.executablePath, .stat old, .chmod new info.Mode], by simp, by simp,
        by simp⟩

/-- C9, instance: the Linux host on which the installed binary cannot be inspected. -/
theorem posix_stat_or_chmod_failure_aborts_witness :
    statFile linuxUnreadableEnv linuxStart.fs "/usr/local/bin/minikube" =
      .error (.pathError "stat" "/usr/local/bin/minikube" .EACCES) ∧
    (replaceMinikubeBinary linuxUnreadableEnv "/tmp/minikube" linuxStart).1 =
      some (.pathError "stat" "/usr/local/bin/minikube" .EACCES) ∧
    (replaceMinikubeBinary linuxUnreadableEnv "/tmp/minikube" linuxStart).2.fs = linuxStart.fs :=
  ⟨rfl,
    (posix_stat_or_chmod_failure_aborts linuxUnreadableEnv "/tmp/minikube"
      "/usr/local/bin/minikube" linuxStart
      (.pathError "stat" "/usr/local/bin/minikube" .EACCES) (Or.inl rfl) rfl (Or.inl rfl)).1,
    (posix_stat_or_chmod_failure_aborts linuxUnreadableEnv "/tmp/minikube"
      "/usr/local/bin/minikube" linuxStart
      (.pathError "stat" "/usr/local/bin/minikube" .EACCES) (Or.inl rfl) rfl (Or.inl rfl)).2.1⟩

/-- C10, counterexample: on the NetBSD host, where the path of the executable
cannot be read, the swap returns the error of that lookup, and its message does
not contain the platform name. -/
theorem unsupported_platform_error_need_not_name_platform :
    netbsdEnv.GOOS ≠ "windows" ∧ netbsdEnv.GOOS ≠ "linux" ∧ netbsdEnv.GOOS ≠ "darwin" ∧
    (replaceMinikubeBinary netbsdEnv "/tmp/minikube" linuxStart).1 =
      some (.pathError "readlink" "/proc/curproc/exe" .ENOENT) ∧
    ((replaceMinikubeBinary netbsdEnv "/tmp/minikube" linuxStart).1.map GoError.Error) =
      some "readlink /proc/curproc/exe: no such file or directory" ∧
    ¬ (netbsdEnv.GOOS.data <:+:
      "readlink /proc/curproc/exe: no such file or directory".data) := by
  decide

/-- C10, amended: on every platform other than windows, linux and darwin the swap
makes no call besides asking for the path of the executable and leaves the
file system as it was; it returns the error "unsupported platform: " followed
by the platform name, whose message contains that name, when the path of the
executable was found, and the error of that lookup otherwise. -/
theorem unsupported_platform_takes_no_action (env : Env) (new : String) (s : State)
    (hw : env.GOOS ≠ "windows") (hl : env.GOOS ≠ "linux") (hd : env.GOOS ≠ "darwin") :
    (replaceMinikubeBinary env new s).1 =
      (match env.executablePath with
        | .ok _ => some (.errorString ("unsupported platform: " ++ env.GOOS))
        | .error err => some err) ∧
    env.GOOS.data <:+: (GoError.errorString ("unsupported platform: " ++ env.GOOS)).Error.data ∧
    (replaceMinikubeBinary env new s).2.fs = s.fs ∧
    (replaceMinikubeBinary env new s).2.log = s.log ++ [.executablePath] := by
  refine ⟨?_, ?_, ?_, ?_⟩
  · cases hexe : env.executablePath <;>
      simp [replaceMinikubeBinary, GetBinaryExecutePath, hexe, hw, hl, hd, Errorf]
  · simp only [GoError.Error, String.data_append]
    exact ⟨"unsupported platform: ".data, [], by simp⟩
  · cases hexe : env.executablePath <;>
      simp [replaceMinikubeBinary, GetBinaryExecutePath, hexe, hw, hl, hd, State.record]
  · cases hexe : env.executablePath <;>
      simp [replaceMinikubeBinary, GetBinaryExecutePath, hexe, hw, hl, hd, State.record]

/-- C10, amended, instance: the FreeBSD host. -/
theorem unsupported_platform_takes_no_action_witness :
    freebsdEnv.GOOS ≠ "windows" ∧ freebsdEnv.GOOS ≠ "linux" ∧ freebsdEnv.GOOS ≠ "darwin" ∧
    (replaceMinikubeBinary freebsdEnv "/tmp/minikube" linuxStart).1 =
      some (.errorString ("unsupported platform: " ++ "freebsd")) ∧
    (replaceMinikubeBinary freebsdEnv "/tmp/minikube" linuxStart).2.log =
      linuxStart.log ++ [.executablePath] :=
  ⟨by decide, by decide, by decide,
    (unsupported_platform_takes_no_action freebsdEnv "/tmp/minikube" linuxStart
      (by decide) (by decide) (by decide)).1,
    (unsupported_platform_takes_no_action freebsdEnv "/tmp/minikube" linuxStart
      (by decide) (by decide) (by decide)).2.2.2⟩

end MinikubeUpgrade
